import Mathlib

/-!
Shallow embedding of the Hangman game engine from `hangman_single.py`
(PRT582 Hangman). The engine is a single state machine: an immutable
`HangmanState` snapshot (answer, lives, guessed letters) owned by a
`HangmanEngine`, with operations `start`, `guess`, `timeout` and a read
accessor `state`. Python string helpers (`strip`, `upper`, `join`,
membership) are modelled list-wise on the character data; Python `int`
is modelled as `Int`; a raised exception is modelled as an `Except.error`
result, with the engine value returned unchanged alongside it (a raise
happens before any assignment to the state attribute, so the object's
state survives the exception). The injected randomness source
(`random.Random.choice`) is modelled by an adversarial index `pick`:
`choice pool` becomes `pool.getD (pick % pool.length) ""`.
-/

/-- Model of Python `str.strip()`: drop whitespace from both ends. -/
def pyStrip (s : String) : String :=
  String.mk (((s.data.dropWhile Char.isWhitespace).reverse.dropWhile
    Char.isWhitespace).reverse)

/-- Model of Python `str.upper()` (ASCII, which covers the engine's alphabet). -/
def pyUpper (s : String) : String :=
  String.mk (s.data.map Char.toUpper)

/-- Model of Python `sep.join(parts)`. -/
def pyJoin (sep : String) (parts : List String) : String :=
  String.mk (((parts.map String.data).intersperse sep.data).flatten)

/-- Membership `ch in string.ascii_uppercase` for a single character. -/
def isAsciiUppercase (ch : Char) : Bool :=
  decide ('A' ≤ ch) && decide (ch ≤ 'Z')

/-- `MASK_CHAR = "_"`. -/
def MASK_CHAR : String := "_"

/-- `_normalize_answer`: uppercase, keep only A-Z and spaces, strip. -/
def normalize_answer (text : String) : String :=
  pyStrip (String.mk ((pyUpper text).data.filter fun ch =>
    isAsciiUppercase ch || ch == ' '))

/-- `HangmanState`: snapshot of state for any UI. -/
structure HangmanState where
  answer : String
  lives : Int
  guessed : Finset Char
deriving DecidableEq

/-- `HangmanState.masked`: underscore hidden letters; keep spaces.
The source joins the per-character renders with `" "`. -/
def HangmanState.masked (st : HangmanState) : String :=
  pyJoin " " (st.answer.data.map fun ch =>
    if ch = ' ' ∨ ch ∈ st.guessed then String.mk [ch] else MASK_CHAR)

/-- `HangmanState.is_won`: true when all letters are guessed. -/
def HangmanState.is_won (st : HangmanState) : Bool :=
  st.answer.data.all fun ch => ch == ' ' || decide (ch ∈ st.guessed)

/-- `HangmanState.is_lost`: true when lives are 0 and not already won. -/
def HangmanState.is_lost (st : HangmanState) : Bool :=
  decide (st.lives ≤ 0) && !st.is_won

/-- `HangmanEngine`: main rules of Hangman with a small, testable API.
Underscore-prefixed fields mirror the private attributes of the class. -/
structure HangmanEngine where
  wordsP : List String
  phrasesP : List String
  defaultLives : Int
  stateOpt : Option HangmanState
deriving DecidableEq

/-- `HangmanEngine.__init__`: keep non-blank entries of both pools
(stripped), fail if either pool is empty afterwards. -/
def HangmanEngine.init (words phrases : List String) (lives : Int) :
    Except String HangmanEngine :=
  let ws := (words.filter fun w => w ≠ "" ∧ pyStrip w ≠ "").map pyStrip
  let ps := (phrases.filter fun p => p ≠ "" ∧ pyStrip p ≠ "").map pyStrip
  if ws = [] then .error "words must not be empty"
  else if ps = [] then .error "phrases must not be empty"
  else .ok ⟨ws, ps, lives, none⟩

/-- The pool entry drawn by `start`: `self._rng.choice(pool)`, with the
randomness source modelled by the index `pick`. -/
def HangmanEngine.drawn (e : HangmanEngine) (difficulty : String)
    (pick : Nat) : String :=
  let pool := if difficulty = "basic" then e.wordsP else e.phrasesP
  pool.getD (pick % pool.length) ""

/-- `HangmanEngine.start`: start a game for basic (word) or
intermediate (phrase); any other difficulty raises. -/
def HangmanEngine.start (e : HangmanEngine) (difficulty : String)
    (pick : Nat) : HangmanEngine × Except String HangmanState :=
  if difficulty ≠ "basic" ∧ difficulty ≠ "intermediate" then
    (e, .error "difficulty must be basic or intermediate")
  else
    let st : HangmanState :=
      ⟨normalize_answer (e.drawn difficulty pick), e.defaultLives, ∅⟩
    ({e with stateOpt := some st}, .ok st)

/-- `HangmanEngine.state`: current state snapshot (raises if not started). -/
def HangmanEngine.state (e : HangmanEngine) : Except String HangmanState :=
  match e.stateOpt with
  | none => .error "game not started"
  | some st => .ok st

/-- `HangmanEngine.guess`: apply a single-letter guess; invalid or
repeat guesses are ignored. -/
def HangmanEngine.guess (e : HangmanEngine) (letter : String) :
    HangmanEngine × Except String HangmanState :=
  match e.stateOpt with
  | none => (e, .error "game not started")
  | some st =>
    if st.is_won || st.is_lost then (e, .ok st)
    else
      match (pyUpper (pyStrip letter)).data with
      | [c] =>
        if isAsciiUppercase c then
          if c ∈ st.guessed then (e, .ok st)
          else
            let st' : HangmanState :=
              ⟨st.answer,
               st.lives - (if st.answer.data.contains c then 0 else 1),
               insert c st.guessed⟩
            ({e with stateOpt := some st'}, .ok st')
        else (e, .ok st)
      | _ => (e, .ok st)

/-- `HangmanEngine.timeout`: deduct one life (clamped at 0) when the UI
reports a timeout; no letter is added to the guessed set. -/
def HangmanEngine.timeout (e : HangmanEngine) :
    HangmanEngine × Except String HangmanState :=
  match e.stateOpt with
  | none => (e, .error "game not started")
  | some st =>
    if st.is_won || st.is_lost then (e, .ok st)
    else
      let st' : HangmanState :=
        ⟨st.answer, max (st.lives - 1) 0, st.guessed⟩
      ({e with stateOpt := some st'}, .ok st')

/-- One externally invokable mutating call on the engine. -/
inductive Op where
  | start (difficulty : String) (pick : Nat)
  | guess (letter : String)
  | timeout
deriving DecidableEq

/-- Apply one call to the engine, keeping the engine it leaves behind. -/
def applyOp (e : HangmanEngine) : Op → HangmanEngine
  | .start d pick => (e.start d pick).1
  | .guess l => (e.guess l).1
  | .timeout => (e.timeout).1

/-- Run a sequence of calls against the engine. -/
def run (e : HangmanEngine) (ops : List Op) : HangmanEngine :=
  ops.foldl applyOp e

/-- Spec-level render of one answer position: the character itself if it is
a space or has been guessed, otherwise the placeholder. -/
def maskedSpecChar (guessed : Finset Char) (ch : Char) : Char :=
  if ch = ' ' ∨ ch ∈ guessed then ch else '_'

/-- Inductive invariant: the configured default is remembered and any
current snapshot has lives within `[0, dl]`. -/
def EngineInv (dl : Int) (e : HangmanEngine) : Prop :=
  e.defaultLives = dl ∧
    ∀ st, e.stateOpt = some st → 0 ≤ st.lives ∧ st.lives ≤ dl

example : normalize_answer "  hello, world! " = "HELLO WORLD" := by decide

example :
    HangmanState.masked ⟨"ABC", 3, {'A'}⟩ = "A _ _" := by decide

example :
    (HangmanEngine.init ["ABC"] ["X Y"] 3).toOption.map
      (fun e => ((e.start "basic" 0).1.guess "a").1.stateOpt) =
    some (some ⟨"ABC", 3, {'A'}⟩) := by decide

/-! ### Helper lemmas shared by several claims -/

/-- Terminal guard of `guess`: a won or lost round swallows every guess. -/
theorem guess_of_terminal (e : HangmanEngine) (st : HangmanState) (l : String)
    (h : e.stateOpt = some st) (ht : (st.is_won || st.is_lost) = true) :
    e.guess l = (e, .ok st) := by
  unfold HangmanEngine.guess
  rw [h]
  simp [ht]

/-- Terminal guard of `timeout`: a won or lost round swallows every timeout. -/
theorem timeout_of_terminal (e : HangmanEngine) (st : HangmanState)
    (h : e.stateOpt = some st) (ht : (st.is_won || st.is_lost) = true) :
    e.timeout = (e, .ok st) := by
  unfold HangmanEngine.timeout
  rw [h]
  simp [ht]

/-- Flattening singleton renders interspersed with a singleton separator is
character-level intersperse. -/
theorem flatten_intersperse_singleton (f : Char → Char) (sep : Char) :
    ∀ l : List Char,
      (((l.map fun c => [f c]).intersperse [sep]).flatten) =
        List.intersperse sep (l.map f)
  | [] => rfl
  | [a] => rfl
  | a :: b :: t => by
    have ih := flatten_intersperse_singleton f sep (b :: t)
    simp only [List.map_cons, List.intersperse_cons_cons, List.flatten_cons] at *
    simp [ih]

/-! ### Claim C1 -/

/-- Claim C1, as stated, is false: the engine joins the per-position renders
with a space, so for answer "ABC" with guessed set containing A the masked
view is "A _ _", not "A__". The state below is exactly the one produced by
`init` + `start "basic"` + `guess "A"` on pools ["ABC"] / ["X Y"]. -/
theorem C1_counterexample :
    ((HangmanEngine.init ["ABC"] ["X Y"] 3).toOption.map
        (fun e => ((e.start "basic" 0).1.guess "A").1.stateOpt)
      = some (some ⟨"ABC", 3, {'A'}⟩))
    ∧ HangmanState.masked ⟨"ABC", 3, {'A'}⟩ ≠ "A__"
    ∧ HangmanState.masked ⟨"ABC", 3, {'A'}⟩ = "A _ _" := by
  refine ⟨by decide, by decide, by decide⟩

/-- Claim C1 (amended): the masked view renders each character of the answer
in order — the character itself if it is a space or guessed, a placeholder
otherwise — but the renders are joined with a single space separator
inserted by the engine between consecutive positions. -/
theorem C1_amended (st : HangmanState) :
    st.masked.data =
      List.intersperse ' ' (st.answer.data.map (maskedSpecChar st.guessed)) := by
  unfold HangmanState.masked pyJoin
  have hmap :
      (st.answer.data.map fun ch =>
          if ch = ' ' ∨ ch ∈ st.guessed then String.mk [ch] else MASK_CHAR).map
        String.data
      = st.answer.data.map fun ch => [maskedSpecChar st.guessed ch] := by
    rw [List.map_map]
    refine List.map_congr_left fun ch _ => ?_
    by_cases hch : ch = ' ' ∨ ch ∈ st.guessed <;>
      simp [maskedSpecChar, hch, MASK_CHAR]
  rw [hmap]
  exact flatten_intersperse_singleton (maskedSpecChar st.guessed) ' ' st.answer.data

/-! ### Claim C2 -/

/-- Claim C2: once the current round is won or lost, every guess and every
timeout returns the state snapshot unchanged and leaves the engine — hence
lives, guessed set, answer and masked view — untouched; consequently any
sequence of guess/timeout calls leaves the engine fixed. -/
theorem C2_terminal_state_frozen (e : HangmanEngine) (st : HangmanState)
    (h : e.stateOpt = some st)
    (ht : st.is_won = true ∨ st.is_lost = true) :
    (∀ l, e.guess l = (e, .ok st))
    ∧ e.timeout = (e, .ok st)
    ∧ ∀ ops : List Op, (∀ d p, Op.start d p ∉ ops) → run e ops = e := by
  have htb : (st.is_won || st.is_lost) = true := by
    rcases ht with ht | ht <;> simp [ht]
  refine ⟨fun l => guess_of_terminal e st l h htb,
          timeout_of_terminal e st h htb, ?_⟩
  intro ops hops
  induction ops with
  | nil => rfl
  | cons op rest ih =>
    have hstep : applyOp e op = e := by
      cases op with
      | start d p => exact absurd (List.mem_cons_self _ _) (hops d p)
      | guess l => simp [applyOp, guess_of_terminal e st l h htb]
      | timeout => simp [applyOp, timeout_of_terminal e st h htb]
    have hrest : ∀ d p, Op.start d p ∉ rest := fun d p hm =>
      hops d p (List.mem_cons_of_mem _ hm)
    calc run e (op :: rest) = run (applyOp e op) rest := rfl
      _ = run e rest := by rw [hstep]
      _ = e := ih hrest

/-- Witness for C2 at a concrete lost state. -/
theorem C2_witness :
    HangmanEngine.guess ⟨["A"], ["B C"], 1, some ⟨"A", 0, ∅⟩⟩ "Z" =
      (⟨["A"], ["B C"], 1, some ⟨"A", 0, ∅⟩⟩, .ok ⟨"A", 0, ∅⟩) :=
  (C2_terminal_state_frozen ⟨["A"], ["B C"], 1, some ⟨"A", 0, ∅⟩⟩
    ⟨"A", 0, ∅⟩ rfl (Or.inr (by decide))).1 "Z"

/-! ### Claim C3 -/

/-- A round that is neither won nor lost has at least one life left. -/
theorem lives_pos_of_not_terminal (st : HangmanState)
    (hw : st.is_won = false) (hl : st.is_lost = false) : 0 < st.lives := by
  unfold HangmanState.is_lost at hl
  rw [hw] at hl
  simp at hl
  omega

/-- A freshly constructed engine satisfies the invariant. -/
theorem inv_init (words phrases : List String) (dl : Int) (e : HangmanEngine)
    (h : HangmanEngine.init words phrases dl = .ok e) : EngineInv dl e := by
  simp only [HangmanEngine.init] at h
  split at h
  · exact absurd h (by simp)
  · split at h
    · exact absurd h (by simp)
    · injection h with h
      subst h
      exact ⟨rfl, fun st hsome => by simp at hsome⟩

/-- Each engine call preserves the invariant when the default is positive. -/
theorem inv_applyOp (dl : Int) (hdl : 0 < dl) (e : HangmanEngine)
    (hinv : EngineInv dl e) (op : Op) : EngineInv dl (applyOp e op) := by
  obtain ⟨hdef, hst⟩ := hinv
  cases op with
  | start d pick =>
    simp only [applyOp, HangmanEngine.start]
    split
    · exact ⟨hdef, hst⟩
    · refine ⟨hdef, fun st hsome => ?_⟩
      simp only at hsome
      injection hsome with hsome
      subst hsome
      exact ⟨by simp [hdef]; omega, by simp [hdef]⟩
  | guess l =>
    simp only [applyOp, HangmanEngine.guess]
    rcases he : e.stateOpt with _ | st0
    · exact ⟨hdef, hst⟩
    · simp only
      split
      · exact ⟨hdef, hst⟩
      · rename_i hterm
        have hw : st0.is_won = false := by
          rcases hb : st0.is_won <;> simp [hb] at hterm ⊢
        have hl : st0.is_lost = false := by
          rcases hb : st0.is_lost <;> simp [hb] at hterm ⊢
        have hpos : 0 < st0.lives := lives_pos_of_not_terminal st0 hw hl
        have hub : st0.lives ≤ dl := (hst st0 he).2
        split
        · split
          · split
            · exact ⟨hdef, hst⟩
            · refine ⟨hdef, fun st hsome => ?_⟩
              simp only at hsome
              injection hsome with hsome
              subst hsome
              refine ⟨?_, ?_⟩ <;> dsimp only <;> split <;> omega
          · exact ⟨hdef, hst⟩
        · exact ⟨hdef, hst⟩
  | timeout =>
    simp only [applyOp, HangmanEngine.timeout]
    rcases he : e.stateOpt with _ | st0
    · exact ⟨hdef, hst⟩
    · simp only
      split
      · exact ⟨hdef, hst⟩
      · have hub : st0.lives ≤ dl := (hst st0 he).2
        refine ⟨hdef, fun st hsome => ?_⟩
        simp only at hsome
        injection hsome with hsome
        subst hsome
        refine ⟨le_max_right _ _, max_le (by omega) (by omega)⟩

/-- Any call sequence preserves the invariant. -/
theorem inv_run (dl : Int) (hdl : 0 < dl) :
    ∀ (ops : List Op) (e : HangmanEngine),
      EngineInv dl e → EngineInv dl (run e ops)
  | [], _, h => h
  | op :: rest, e, h =>
    inv_run dl hdl rest (applyOp e op) (inv_applyOp dl hdl e h op)

/-- Claim C3: on an engine constructed with a positive default life count,
every state reachable by any sequence of start/guess/timeout calls has its
life count within `[0, default_lives]`. -/
theorem C3_lives_in_range (words phrases : List String) (dl : Int)
    (hdl : 0 < dl) (e0 : HangmanEngine)
    (h0 : HangmanEngine.init words phrases dl = .ok e0)
    (ops : List Op) (st : HangmanState)
    (hst : (run e0 ops).stateOpt = some st) :
    0 ≤ st.lives ∧ st.lives ≤ dl :=
  (inv_run dl hdl ops e0 (inv_init words phrases dl e0 h0)).2 st hst

/-- Witness for C3: start a round with 2 lives and guess a wrong letter. -/
theorem C3_witness :
    0 ≤ (⟨"A", 1, {'Z'}⟩ : HangmanState).lives ∧
      (⟨"A", 1, {'Z'}⟩ : HangmanState).lives ≤ 2 :=
  C3_lives_in_range ["A"] ["B C"] 2 (by decide) ⟨["A"], ["B C"], 2, none⟩
    rfl [Op.start "basic" 0, Op.guess "Z"] ⟨"A", 1, {'Z'}⟩ (by decide)

/-! ### Claim C4 -/

/-- Claim C4, as stated, is false in its Lost clause: `is_lost` tests
`lives <= 0`, not `lives == 0`, and the engine accepts a negative default
life count, so `init` + `start` reaches a state that is Lost while its
life count is -1, not zero. -/
theorem C4_counterexample :
    ((HangmanEngine.init ["A"] ["B C"] (-1)).toOption.map
        (fun e => (e.start "basic" 0).1.stateOpt) = some (some ⟨"A", -1, ∅⟩))
    ∧ HangmanState.is_lost ⟨"A", -1, ∅⟩ = true
    ∧ (⟨"A", -1, ∅⟩ : HangmanState).lives ≠ 0 := by
  refine ⟨by decide, by decide, by decide⟩

/-- Claim C4 (amended): Won iff every non-space character of the answer is
guessed; Lost iff the life count is nonpositive and the state is not Won —
equivalently, exactly zero whenever the life count is nonnegative (as in
every round of an engine with a positive default); Won and Lost are never
both true, and zero lives with all letters guessed is Won (win precedence). -/
theorem C4_amended (st : HangmanState) :
    (st.is_won = true ↔ ∀ ch ∈ st.answer.data, ch = ' ' ∨ ch ∈ st.guessed)
    ∧ (st.is_lost = true ↔ st.lives ≤ 0 ∧ st.is_won = false)
    ∧ ¬(st.is_won = true ∧ st.is_lost = true)
    ∧ (0 ≤ st.lives →
        (st.is_lost = true ↔ st.lives = 0 ∧ st.is_won = false)) := by
  refine ⟨?_, ?_, ?_, ?_⟩
  · unfold HangmanState.is_won
    simp [List.all_eq_true]
  · unfold HangmanState.is_lost
    simp
  · rintro ⟨hw, hl⟩
    unfold HangmanState.is_lost at hl
    rw [hw] at hl
    simp at hl
  · intro h0
    unfold HangmanState.is_lost
    simp only [Bool.and_eq_true, decide_eq_true_eq, Bool.not_eq_true']
    constructor
    · rintro ⟨h1, h2⟩
      exact ⟨by omega, h2⟩
    · rintro ⟨h1, h2⟩
      exact ⟨by omega, h2⟩

/-- Witness for C4 (amended) at a concrete zero-lives unguessed state. -/
theorem C4_witness :
    HangmanState.is_lost ⟨"A", 0, ∅⟩ = true :=
  ((C4_amended ⟨"A", 0, ∅⟩).2.2.2 (by decide)).mpr ⟨rfl, by decide⟩

/-! ### Claim C5 -/

/-- Claim C5: on a round that is neither won nor lost, a guess whose input
trims and upper-cases to exactly one fresh letter A-Z stores and returns a
state with that letter added to the guessed set, the life count lowered by
exactly one when the letter does not occur in the answer and untouched when
it does, and the answer unchanged. -/
theorem C5_fresh_valid_guess (e : HangmanEngine) (st : HangmanState)
    (letter : String) (c : Char)
    (h : e.stateOpt = some st)
    (hw : st.is_won = false) (hl : st.is_lost = false)
    (hc : (pyUpper (pyStrip letter)).data = [c])
    (hrange : 'A' ≤ c ∧ c ≤ 'Z')
    (hnew : c ∉ st.guessed) :
    ∃ st', e.guess letter = ({e with stateOpt := some st'}, .ok st')
      ∧ st'.answer = st.answer
      ∧ st'.guessed = insert c st.guessed
      ∧ (c ∉ st.answer.data → st'.lives = st.lives - 1)
      ∧ (c ∈ st.answer.data → st'.lives = st.lives) := by
  have hterm : (st.is_won || st.is_lost) = false := by simp [hw, hl]
  have hr : isAsciiUppercase c = true := by
    simp [isAsciiUppercase, hrange.1, hrange.2]
  unfold HangmanEngine.guess
  rw [h]
  simp only [hterm, Bool.false_eq_true, if_false]
  rw [hc]
  simp only [hr, if_true, if_neg hnew]
  refine ⟨_, rfl, rfl, rfl, fun hmem => ?_, fun hmem => ?_⟩ <;>
    simp [hmem]

/-- Witness for C5: a fresh correct guess "a" on answer "ABC". -/
theorem C5_witness :
    ∃ st', HangmanEngine.guess
        ⟨["ABC"], ["X Y"], 3, some ⟨"ABC", 3, ∅⟩⟩ "a" =
        (⟨["ABC"], ["X Y"], 3, some st'⟩, .ok st')
      ∧ st'.answer = "ABC"
      ∧ st'.guessed = insert 'A' (∅ : Finset Char)
      ∧ ('A' ∉ "ABC".data → st'.lives = 3 - 1)
      ∧ ('A' ∈ "ABC".data → st'.lives = 3) :=
  C5_fresh_valid_guess ⟨["ABC"], ["X Y"], 3, some ⟨"ABC", 3, ∅⟩⟩
    ⟨"ABC", 3, ∅⟩ "a" 'A' rfl (by decide) (by decide) (by decide)
    ⟨by decide, by decide⟩ (by decide)

/-! ### Claim C6 -/

/-- Claim C6: on a round that is neither won nor lost, a timeout stores and
returns a state whose life count is the old one minus one clamped at zero,
with the guessed set and the answer unchanged. -/
theorem C6_timeout_decrements_clamped (e : HangmanEngine) (st : HangmanState)
    (h : e.stateOpt = some st)
    (hw : st.is_won = false) (hl : st.is_lost = false) :
    ∃ st', e.timeout = ({e with stateOpt := some st'}, .ok st')
      ∧ st'.lives = max (st.lives - 1) 0
      ∧ st'.guessed = st.guessed
      ∧ st'.answer = st.answer := by
  have hterm : (st.is_won || st.is_lost) = false := by simp [hw, hl]
  unfold HangmanEngine.timeout
  rw [h]
  simp only [hterm, Bool.false_eq_true, if_false]
  exact ⟨_, rfl, rfl, rfl, rfl⟩

/-- Witness for C6 on a fresh two-lives round. -/
theorem C6_witness :
    ∃ st', HangmanEngine.timeout ⟨["ABC"], ["X Y"], 2, some ⟨"ABC", 2, ∅⟩⟩ =
        (⟨["ABC"], ["X Y"], 2, some st'⟩, .ok st')
      ∧ st'.lives = max (2 - 1) 0
      ∧ st'.guessed = (∅ : Finset Char)
      ∧ st'.answer = "ABC" :=
  C6_timeout_decrements_clamped ⟨["ABC"], ["X Y"], 2, some ⟨"ABC", 2, ∅⟩⟩
    ⟨"ABC", 2, ∅⟩ rfl (by decide) (by decide)

/-! ### Claim C7 -/

/-- Claim C7: on any started round, a guess whose input does not trim and
upper-case to exactly one letter A-Z, or whose letter was already guessed,
returns the unchanged state with no error; in particular a repeated guess,
correct or wrong, never decrements lives. -/
theorem C7_invalid_or_repeat_ignored (e : HangmanEngine) (st : HangmanState)
    (letter : String) (h : e.stateOpt = some st)
    (hbad : (¬ ∃ c, (pyUpper (pyStrip letter)).data = [c]
                ∧ 'A' ≤ c ∧ c ≤ 'Z')
            ∨ ∃ c, (pyUpper (pyStrip letter)).data = [c]
                ∧ c ∈ st.guessed) :
    e.guess letter = (e, .ok st) := by
  unfold HangmanEngine.guess
  rw [h]
  by_cases hterm : (st.is_won || st.is_lost) = true
  · simp [hterm]
  · rcases hdata : (pyUpper (pyStrip letter)).data with _ | ⟨c, rest⟩
    · simp [hterm, hdata]
    · rcases rest with _ | ⟨c2, rest2⟩
      · by_cases hr : isAsciiUppercase c = true
        · have hmem : c ∈ st.guessed := by
            rcases hbad with hno | ⟨c', hc', hmem'⟩
            · exact absurd ⟨c, hdata, by
                simpa [isAsciiUppercase, Bool.and_eq_true] using hr⟩ hno
            · rw [hdata] at hc'
              injection hc' with hc' _
              rwa [hc']
          simp [hterm, hdata, hr, hmem]
        · simp [hterm, hdata, hr]
      · simp [hterm, hdata]

/-- Witness for C7: repeating the already guessed letter A. -/
theorem C7_witness :
    HangmanEngine.guess ⟨["ABC"], ["X Y"], 3, some ⟨"ABC", 3, {'A'}⟩⟩ "A" =
      (⟨["ABC"], ["X Y"], 3, some ⟨"ABC", 3, {'A'}⟩⟩, .ok ⟨"ABC", 3, {'A'}⟩) :=
  C7_invalid_or_repeat_ignored ⟨["ABC"], ["X Y"], 3, some ⟨"ABC", 3, {'A'}⟩⟩
    ⟨"ABC", 3, {'A'}⟩ "A" rfl (Or.inr ⟨'A', by decide, by decide⟩)

/-! ### Claim C8 -/

/-- A pool list maps and filters to nothing exactly when every entry strips
to the empty string. -/
theorem pool_blank_iff (l : List String) :
    ((l.filter fun w => w ≠ "" ∧ pyStrip w ≠ "").map pyStrip = []) ↔
      ∀ w ∈ l, pyStrip w = "" := by
  simp only [List.map_eq_nil_iff, List.filter_eq_nil_iff, decide_eq_true_eq,
    not_and, ne_eq, not_not]
  constructor
  · intro hall w hw
    by_cases hwe : w = ""
    · rw [hwe]; rfl
    · exact hall w hw hwe
  · intro hall w hw _
    exact hall w hw

/-- Claim C8: each usage error is raised, never defaulted — construction
fails exactly when a pool is all blank/whitespace-only entries, start fails
exactly for a difficulty other than basic/intermediate and leaves the
engine (hence any previous round's state) unchanged on that error, and the
state accessor of a freshly constructed engine fails with a not-started
error. -/
theorem C8_usage_errors_raised :
    (∀ (words phrases : List String) (lives : Int),
      (∃ err, HangmanEngine.init words phrases lives = .error err) ↔
        ((∀ w ∈ words, pyStrip w = "") ∨ (∀ p ∈ phrases, pyStrip p = "")))
    ∧ (∀ (e : HangmanEngine) (d : String) (pick : Nat),
        ((∃ err, (e.start d pick).2 = .error err) ↔
          (d ≠ "basic" ∧ d ≠ "intermediate"))
        ∧ ((d ≠ "basic" ∧ d ≠ "intermediate") → (e.start d pick).1 = e))
    ∧ (∀ (words phrases : List String) (lives : Int) (e : HangmanEngine),
        HangmanEngine.init words phrases lives = .ok e →
          ∃ err, e.state = .error err) := by
  refine ⟨?_, ?_, ?_⟩
  · intro words phrases lives
    simp only [HangmanEngine.init]
    constructor
    · rintro ⟨err, herr⟩
      by_cases h1 :
          (words.filter fun w => w ≠ "" ∧ pyStrip w ≠ "").map pyStrip = []
      · exact Or.inl ((pool_blank_iff words).mp h1)
      · rw [if_neg h1] at herr
        by_cases h2 :
            (phrases.filter fun p => p ≠ "" ∧ pyStrip p ≠ "").map pyStrip = []
        · exact Or.inr ((pool_blank_iff phrases).mp h2)
        · rw [if_neg h2] at herr
          exact absurd herr (by simp)
    · rintro (hws | hps)
      · rw [if_pos ((pool_blank_iff words).mpr hws)]
        exact ⟨_, rfl⟩
      · by_cases h1 :
            (words.filter fun w => w ≠ "" ∧ pyStrip w ≠ "").map pyStrip = []
        · rw [if_pos h1]
          exact ⟨_, rfl⟩
        · rw [if_neg h1, if_pos ((pool_blank_iff phrases).mpr hps)]
          exact ⟨_, rfl⟩
  · intro e d pick
    unfold HangmanEngine.start
    by_cases hd : d ≠ "basic" ∧ d ≠ "intermediate"
    · rw [if_pos hd]
      exact ⟨⟨fun _ => hd, fun _ => ⟨_, rfl⟩⟩, fun _ => rfl⟩
    · rw [if_neg hd]
      exact ⟨⟨fun ⟨err, herr⟩ => absurd herr (by simp), fun hcon =>
        absurd hcon hd⟩, fun hcon => absurd hcon hd⟩
  · intro words phrases lives e hinit
    simp only [HangmanEngine.init] at hinit
    split at hinit
    · exact absurd hinit (by simp)
    · split at hinit
      · exact absurd hinit (by simp)
      · injection hinit with hinit
        subst hinit
        exact ⟨_, rfl⟩

/-- Witness for C8: construction from an all-blank word pool fails. -/
theorem C8_witness :
    ∃ err, HangmanEngine.init ["  ", ""] ["X Y"] 3 = .error err :=
  (C8_usage_errors_raised.1 ["  ", ""] ["X Y"] 3).mpr
    (Or.inl (by decide))

/-! ### Claim C9 -/

/-- Stripping an all-space character list yields the empty string. -/
theorem pyStrip_all_space (l : List Char) (h : ∀ c ∈ l, c = ' ') :
    pyStrip (String.mk l) = "" := by
  unfold pyStrip
  have h1 : l.dropWhile Char.isWhitespace = [] := by
    rw [List.dropWhile_eq_nil_iff]
    intro c hc
    rw [h c hc]
    rfl
  show String.mk (((l.dropWhile Char.isWhitespace).reverse.dropWhile
    Char.isWhitespace).reverse) = ""
  rw [h1]
  rfl

/-- Claim C9: when the drawn entry contains no character that upper-cases
into A-Z (e.g. only digits or punctuation), the normalized answer is the
empty string, the round is won immediately at start (vacuously), and every
subsequent guess and timeout is a no-op. -/
theorem C9_unlettered_entry_wins_immediately (e : HangmanEngine) (d : String)
    (pick : Nat) (hd : d = "basic" ∨ d = "intermediate")
    (hraw : ∀ ch ∈ (e.drawn d pick).data,
      isAsciiUppercase ch.toUpper = false) :
    ∃ e' st, e.start d pick = (e', .ok st)
      ∧ st.answer = ""
      ∧ st.is_won = true
      ∧ (∀ l, e'.guess l = (e', .ok st))
      ∧ e'.timeout = (e', .ok st) := by
  have hvalid : ¬(d ≠ "basic" ∧ d ≠ "intermediate") := by
    rcases hd with rfl | rfl <;> simp
  have hansw : normalize_answer (e.drawn d pick) = "" := by
    unfold normalize_answer
    apply pyStrip_all_space
    intro c hc
    rw [List.mem_filter] at hc
    obtain ⟨hcmem, hckeep⟩ := hc
    have hcup : ∃ ch ∈ (e.drawn d pick).data, ch.toUpper = c := by
      simpa [pyUpper] using hcmem
    obtain ⟨ch, hchmem, hchup⟩ := hcup
    have hnot : isAsciiUppercase c = false := hchup ▸ hraw ch hchmem
    rw [hnot] at hckeep
    simpa using hckeep
  unfold HangmanEngine.start
  rw [if_neg hvalid, hansw]
  have hwon : (⟨"", e.defaultLives, ∅⟩ : HangmanState).is_won = true := rfl
  have hterm : ((⟨"", e.defaultLives, ∅⟩ : HangmanState).is_won ||
      (⟨"", e.defaultLives, ∅⟩ : HangmanState).is_lost) = true := by
    rw [hwon]
    rfl
  exact ⟨_, _, rfl, rfl, hwon,
    fun l => guess_of_terminal _ _ l rfl hterm,
    timeout_of_terminal _ _ rfl hterm⟩

/-- Witness for C9: a word pool entry of digits and punctuation only. -/
theorem C9_witness :
    ∃ e' st, HangmanEngine.start ⟨["123!?"], ["X Y"], 3, none⟩ "basic" 0 =
        (e', .ok st)
      ∧ st.answer = ""
      ∧ st.is_won = true
      ∧ (∀ l, e'.guess l = (e', .ok st))
      ∧ e'.timeout = (e', .ok st) :=
  C9_unlettered_entry_wins_immediately ⟨["123!?"], ["X Y"], 3, none⟩
    "basic" 0 (Or.inl rfl) (by decide)

/-! ### Claim C10 -/

/-- Claim C10: construction never fails on account of the life count — its
success is independent of the default life count, so a non-positive one is
accepted — and a round started on such an engine has the non-positive
configured life count from the outset, is immediately lost unless vacuously
won, and every guess and timeout on it is a no-op. -/
theorem C10_nonpositive_lives_round_dead :
    (∀ (words phrases : List String) (dl1 dl2 : Int),
      (∃ e, HangmanEngine.init words phrases dl1 = .ok e) ↔
        (∃ e, HangmanEngine.init words phrases dl2 = .ok e))
    ∧ (∀ (words phrases : List String) (dl : Int), dl ≤ 0 →
        ∀ e : HangmanEngine, HangmanEngine.init words phrases dl = .ok e →
        ∀ (d : String) (pick : Nat) (e' : HangmanEngine) (st : HangmanState),
          e.start d pick = (e', .ok st) →
          st.lives = dl
          ∧ st.lives ≤ 0
          ∧ (st.is_won = false → st.is_lost = true)
          ∧ (∀ l, e'.guess l = (e', .ok st))
          ∧ e'.timeout = (e', .ok st)) := by
  constructor
  · intro words phrases dl1 dl2
    simp only [HangmanEngine.init]
    by_cases h1 :
        (words.filter fun w => w ≠ "" ∧ pyStrip w ≠ "").map pyStrip = []
    · rw [if_pos h1, if_pos h1]
    · rw [if_neg h1, if_neg h1]
      by_cases h2 :
          (phrases.filter fun p => p ≠ "" ∧ pyStrip p ≠ "").map pyStrip = []
      · rw [if_pos h2, if_pos h2]
      · rw [if_neg h2, if_neg h2]
        simp
  · intro words phrases dl hdl e h0 d pick e' st hs
    have hdef : e.defaultLives = dl := by
      simp only [HangmanEngine.init] at h0
      split at h0
      · exact absurd h0 (by simp)
      · split at h0
        · exact absurd h0 (by simp)
        · injection h0 with h0
          rw [← h0]
    unfold HangmanEngine.start at hs
    by_cases hd : d ≠ "basic" ∧ d ≠ "intermediate"
    · rw [if_pos hd] at hs
      injection hs with hs1 hs2
      exact absurd hs2 (by simp)
    · rw [if_neg hd] at hs
      injection hs with hs1 hs2
      injection hs2 with hs2
      have hlives : st.lives = dl := by rw [← hs2, ← hdef]
      have hlost : st.is_won = false → st.is_lost = true := by
        intro hw
        unfold HangmanState.is_lost
        rw [hw]
        simp [hlives]
        omega
      have hterm : (st.is_won || st.is_lost) = true := by
        cases hw : st.is_won with
        | true => rfl
        | false => rw [hlost hw]; rfl
      have hst' : e'.stateOpt = some st := by rw [← hs1, hs2]
      exact ⟨hlives, by omega,
        hlost, fun l => guess_of_terminal _ _ l hst' hterm,
        timeout_of_terminal _ _ hst' hterm⟩

/-- Witness for C10: an engine built with -2 lives, round started on it. -/
theorem C10_witness :
    (⟨"A", -2, ∅⟩ : HangmanState).lives = -2
    ∧ (⟨"A", -2, ∅⟩ : HangmanState).lives ≤ 0
    ∧ ((⟨"A", -2, ∅⟩ : HangmanState).is_won = false →
        (⟨"A", -2, ∅⟩ : HangmanState).is_lost = true)
    ∧ (∀ l, HangmanEngine.guess ⟨["A"], ["B C"], -2, some ⟨"A", -2, ∅⟩⟩ l =
        (⟨["A"], ["B C"], -2, some ⟨"A", -2, ∅⟩⟩, .ok ⟨"A", -2, ∅⟩))
    ∧ HangmanEngine.timeout ⟨["A"], ["B C"], -2, some ⟨"A", -2, ∅⟩⟩ =
        (⟨["A"], ["B C"], -2, some ⟨"A", -2, ∅⟩⟩, .ok ⟨"A", -2, ∅⟩) :=
  C10_nonpositive_lives_round_dead.2 ["A"] ["B C"] (-2) (by decide)
    ⟨["A"], ["B C"], -2, none⟩ rfl "basic" 0
    ⟨["A"], ["B C"], -2, some ⟨"A", -2, ∅⟩⟩ ⟨"A", -2, ∅⟩ rfl
